import Mathlib

/-!
Shallow embedding of the order/amount/serialization core of the
`rs-clob-client` crate (files `src/clob/types.rs`, `src/lib.rs`,
`src/bridge/client.rs`), together with theorems settling the spec claims
about it.

Conventions of the embedding:
* `rust_decimal::Decimal` is modelled as an integer mantissa plus a
  natural-number scale (the value is `mantissa / 10^scale`).  The 96-bit
  mantissa bound and the scale bound 28 play no role in the verified
  properties, so they are not carried as invariants.
* Rust `Result<T>` is `Except Error T`; serde serialization errors are
  `Except String`.
* `serde_json::Value` is modelled by `JsonValue`; JSON objects are
  association lists.  Key ordering inside an object is not modelled
  (serde_json's map is ordered by key); no claim depends on ordering.
* Ethereum addresses are 160-bit numbers rendered as `0x`-prefixed hex
  strings.  The EIP-55 checksum casing of `alloy`'s serializer is not
  modelled; no claim inspects the rendering of an address, the claims only
  compare the rendering of the same address on both sides.
-/

namespace RsClob

/-- The crate's error type (`src/error.rs` is not among the sources; only the
`Error::validation` constructor and the URL-parse error are reachable from the
embedded code, so only those are modelled). -/
inductive Error where
  | validation (msg : String)
  | urlParse (msg : String)
deriving DecidableEq, Repr

/-- `rust_decimal::Decimal`: integer mantissa with a decimal scale. -/
structure Decimal where
  mantissa : Int
  scale : Nat
deriving DecidableEq, Repr

/-- Strip trailing decimal zeros: while the scale is positive and the mantissa
is divisible by 10, divide the mantissa by 10 and decrement the scale.  This is
the loop inside `rust_decimal`'s `normalize_assign`. -/
def stripZeros : Int → Nat → Int × Nat
  | m, 0 => (m, 0)
  | m, s + 1 => if m % 10 = 0 then stripZeros (m / 10) s else (m, s + 1)

/-- `Decimal::normalize`: a zero value becomes `0` at scale `0`; a non-zero
value has its trailing zeros stripped. -/
def Decimal.normalize (d : Decimal) : Decimal :=
  if d.mantissa = 0 then ⟨0, 0⟩
  else
    let p := stripZeros d.mantissa d.scale
    ⟨p.1, p.2⟩

/-- Modelled from the spec: the quote-currency decimal-precision limit
(`USDC_DECIMALS`, declared in `src/clob/order_builder.rs`, which is not among
the sources).  USDC carries 6 decimals.  None of the theorems below depend on
the numeric value chosen here. -/
def USDC_DECIMALS : Nat := 6

/-- Modelled from the spec: the lot-size precision limit (`LOT_SIZE_SCALE`,
declared in `src/clob/order_builder.rs`, which is not among the sources).  A
lot size of 0.01 shares gives scale 2.  None of the theorems below depend on
the numeric value chosen here. -/
def LOT_SIZE_SCALE : Nat := 2

/-- The message produced by `format!("Unable to build Amount with {} decimal
points, must be <= {limit}", scale)` in `Amount::usdc` / `Amount::shares`. -/
def amountErrMsg (s limit : Nat) : String :=
  "Unable to build Amount with " ++ (toString s ++ (" decimal points, must be <= " ++ toString limit))

/-- `AmountInner`: the role-tagged decimal inside an `Amount`. -/
inductive AmountInner where
  | usdc (d : Decimal)
  | shares (d : Decimal)
deriving DecidableEq, Repr

/-- `AmountInner::as_inner`. -/
def AmountInner.as_inner : AmountInner → Decimal
  | .usdc d => d
  | .shares d => d

/-- `Amount`: a validated, role-tagged decimal quantity. -/
structure Amount where
  inner : AmountInner
deriving DecidableEq, Repr

/-- `Amount::as_inner`. -/
def Amount.as_inner (a : Amount) : Decimal :=
  a.inner.as_inner

/-- `Amount::usdc` (the spec's `make_currency`): normalize, then reject a
normalized scale above `USDC_DECIMALS`. -/
def Amount.usdc (value : Decimal) : Except Error Amount :=
  let normalized := value.normalize
  if USDC_DECIMALS < normalized.scale then
    .error (.validation (amountErrMsg normalized.scale USDC_DECIMALS))
  else
    .ok ⟨.usdc normalized⟩

/-- `Amount::shares` (the spec's `make_shares`): normalize, then reject a
normalized scale above `LOT_SIZE_SCALE`. -/
def Amount.shares (value : Decimal) : Except Error Amount :=
  let normalized := value.normalize
  if LOT_SIZE_SCALE < normalized.scale then
    .error (.validation (amountErrMsg normalized.scale LOT_SIZE_SCALE))
  else
    .ok ⟨.shares normalized⟩

/-- `msg` contains `sub` as a contiguous substring. -/
def containsSub (msg sub : String) : Prop :=
  ∃ a b : String, msg = a ++ (sub ++ b)

/-! ### Enum-like wire types (`Side`, `OrderType`, `OrderStatusType`) -/

/-- `Side` (`#[repr(u8)]`, variants `Buy = 0`, `Sell = 1`, `Unknown = 255`). -/
inductive Side where
  | Buy
  | Sell
  | Unknown
deriving DecidableEq, Repr

/-- The `repr(u8)` discriminant of a `Side` (`Buy = 0`, `Sell = 1`,
`Unknown = 255`). -/
def Side.toU8 : Side → Nat
  | .Buy => 0
  | .Sell => 1
  | .Unknown => 255

/-- The message of the validation error raised by `Side::try_from`. -/
def sideErrMsg (v : Nat) : String :=
  "Unable to create Side from " ++ toString v

/-- `impl TryFrom<u8> for Side`: `0 ↦ Buy`, `1 ↦ Sell`, anything else is a
validation error naming the offending value. -/
def Side.tryFrom (value : Nat) : Except Error Side :=
  match value with
  | 0 => .ok .Buy
  | 1 => .ok .Sell
  | other => .error (.validation (sideErrMsg other))

/-- The `Display`/serde rendering of a `Side` (`strum(serialize_all =
"UPPERCASE")` and `serde(rename_all = "UPPERCASE")`). -/
def Side.display : Side → String
  | .Buy => "BUY"
  | .Sell => "SELL"
  | .Unknown => "UNKNOWN"

/-- serde deserialization of a `Side` from a string: the `UPPERCASE` variant
names, the lowercase aliases `buy` / `sell`, and `#[serde(other)]` sending
every other string to `Unknown`. -/
def Side.fromWireStr (s : String) : Side :=
  if s = "BUY" ∨ s = "buy" then .Buy
  else if s = "SELL" ∨ s = "sell" then .Sell
  else .Unknown

/-- The strings recognized by `Side`'s deserializer (all other strings hit the
`#[serde(other)]` fallback).  `"UNKNOWN"` itself is the rename of the fallback
variant. -/
def sideRecognized : List String :=
  ["BUY", "buy", "SELL", "sell"]

/-- `OrderType` (serde variant names `GTC`/`FOK`/`GTD`/`FAK` with lowercase
aliases and an `#[serde(other)]` `Unknown` fallback). -/
inductive OrderType where
  | GTC
  | FOK
  | GTD
  | FAK
  | Unknown
deriving DecidableEq, Repr

/-- serde serialization of an `OrderType` (derived `Serialize`, no rename). -/
def OrderType.wireStr : OrderType → String
  | .GTC => "GTC"
  | .FOK => "FOK"
  | .GTD => "GTD"
  | .FAK => "FAK"
  | .Unknown => "Unknown"

/-- serde deserialization of an `OrderType` from a string: variant names, the
lowercase aliases, and `#[serde(other)]` sending everything else to
`Unknown`. -/
def OrderType.fromWireStr (s : String) : OrderType :=
  if s = "GTC" ∨ s = "gtc" then .GTC
  else if s = "FOK" ∨ s = "fok" then .FOK
  else if s = "GTD" ∨ s = "gtd" then .GTD
  else if s = "FAK" ∨ s = "fak" then .FAK
  else .Unknown

/-- The strings `OrderType`'s deserializer maps to a non-`Unknown` variant. -/
def orderTypeRecognized : List String :=
  ["GTC", "gtc", "FOK", "fok", "GTD", "gtd", "FAK", "fak"]

/-- `OrderStatusType` (`serde(rename_all = "UPPERCASE")`, lowercase aliases,
`#[serde(other)]` `Unknown` fallback). -/
inductive OrderStatusType where
  | Live
  | Matched
  | Canceled
  | Delayed
  | Unmatched
  | Unknown
deriving DecidableEq, Repr

/-- serde deserialization of an `OrderStatusType` from a string. -/
def OrderStatusType.fromWireStr (s : String) : OrderStatusType :=
  if s = "LIVE" ∨ s = "live" then .Live
  else if s = "MATCHED" ∨ s = "matched" then .Matched
  else if s = "CANCELED" ∨ s = "canceled" then .Canceled
  else if s = "DELAYED" ∨ s = "delayed" then .Delayed
  else if s = "UNMATCHED" ∨ s = "unmatched" then .Unmatched
  else .Unknown

/-- The strings `OrderStatusType`'s deserializer maps to a non-`Unknown`
variant. -/
def orderStatusRecognized : List String :=
  ["LIVE", "live", "MATCHED", "matched", "CANCELED", "canceled",
   "DELAYED", "delayed", "UNMATCHED", "unmatched"]

/-! ### `serde_json::Value` and the `Order` / `SignedOrder` wire forms -/

/-- `serde_json::Value`, with objects as association lists. -/
inductive JsonValue where
  | null
  | bool (b : Bool)
  | num (n : Int)
  | str (s : String)
  | arr (xs : List JsonValue)
  | obj (fields : List (String × JsonValue))

/-- Lookup of a key in a JSON object's field list (`serde_json::Map::get`). -/
def getF : List (String × JsonValue) → String → Option JsonValue
  | [], _ => none
  | (k', v) :: rest, k => if k' = k then some v else getF rest k

/-- Insert-or-replace of a key in a JSON object's field list
(`serde_json::Map::insert`, and in-place mutation through `get_mut`). -/
def setF : List (String × JsonValue) → String → JsonValue → List (String × JsonValue)
  | [], k, v => [(k, v)]
  | (k', v') :: rest, k, v =>
      if k' = k then (k', v) :: rest else (k', v') :: setF rest k v

/-- `Value::get` on an object (`None` on non-objects). -/
def JsonValue.getField : JsonValue → String → Option JsonValue
  | .obj l, k => getF l k
  | _, _ => none

/-- `Value::as_u64`: `Some` exactly for integer numbers in `[0, 2^64)`. -/
def JsonValue.asU64 : JsonValue → Option Nat
  | .num n => if 0 ≤ n ∧ n < (2 : Int) ^ 64 then some n.toNat else none
  | _ => none

/-- Lowercase hex digit for a value below 16. -/
def hexDigit (n : Nat) : Char :=
  if n < 10 then Char.ofNat (48 + n) else Char.ofNat (87 + n)

/-- Big-endian hex digits of `n` in `width` positions (zero-padded). -/
def hexDigits : Nat → Nat → List Char
  | _, 0 => []
  | n, w + 1 => hexDigits (n / 16) w ++ [hexDigit (n % 16)]

/-- The serde rendering of a 160-bit address as a `0x`-prefixed 40-digit hex
string.  (EIP-55 checksum casing is not modelled: no claim depends on the
rendering of an address, only on it being kept intact.) -/
def addrHex (a : Nat) : String :=
  "0x" ++ String.mk (hexDigits a 40)

/-- The `sol!`-generated `Order` struct: `uint256` fields and the two `uint8`
tags, all as `Nat`. -/
structure Order where
  salt : Nat
  maker : Nat
  signer : Nat
  taker : Nat
  tokenId : Nat
  makerAmount : Nat
  takerAmount : Nat
  expiration : Nat
  nonce : Nat
  feeRateBps : Nat
  side : Nat
  signatureType : Nat

/-- `ser_salt`: the salt is re-narrowed to `u64` and emitted as a plain JSON
number, failing serialization when it does not fit. -/
def ser_salt (value : Nat) : Except String JsonValue :=
  if value < 2 ^ 64 then .ok (.num (Int.ofNat value))
  else .error "salt does not fit into u64"

/-- The eleven fields after `salt` in serialized order: addresses as hex
strings, the six remaining `uint256` fields through `DisplayFromStr` (decimal
strings), and the two `uint8` tags as numbers. -/
def orderFieldsRest (o : Order) : List (String × JsonValue) :=
  [("maker", .str (addrHex o.maker)),
   ("signer", .str (addrHex o.signer)),
   ("taker", .str (addrHex o.taker)),
   ("tokenId", .str (toString o.tokenId)),
   ("makerAmount", .str (toString o.makerAmount)),
   ("takerAmount", .str (toString o.takerAmount)),
   ("expiration", .str (toString o.expiration)),
   ("nonce", .str (toString o.nonce)),
   ("feeRateBps", .str (toString o.feeRateBps)),
   ("side", .num (Int.ofNat o.side)),
   ("signatureType", .num (Int.ofNat o.signatureType))]

/-- serde serialization of an `Order` (as a `serde_json::Value`): fails iff
`ser_salt` fails. -/
def Order.serialize (o : Order) : Except String JsonValue :=
  match ser_salt o.salt with
  | .error e => .error e
  | .ok saltJ => .ok (.obj (("salt", saltJ) :: orderFieldsRest o))

/-- The signature-injection step of `impl Serialize for SignedOrder`: on an
object, insert the signature string under the key `"signature"`; on anything
else, leave the value alone. -/
def injectSignature (order : JsonValue) (sig : String) : JsonValue :=
  match order with
  | .obj l => .obj (setF l "signature" (.str sig))
  | v => v

/-- The side-rewriting step of `impl Serialize for SignedOrder`: when the
order object has a `"side"` field holding a `u64`-sized number that fits `u8`
and `Side::try_from` accepts it, replace it by the side's string token;
otherwise leave the object untouched. -/
def rewriteSide (order : JsonValue) : JsonValue :=
  match order with
  | .obj l =>
      match getF l "side" with
      | some v =>
          match v.asU64 with
          | some n =>
              if n ≤ 255 then
                match Side.tryFrom n with
                | .ok s => .obj (setF l "side" (.str s.display))
                | .error _ => .obj l
              else .obj l
          | none => .obj l
      | none => .obj l
  | v => v

/-- `SignedOrder`: the canonical order, the wallet signature (modelled by its
`Display` rendering, the only form the serializer uses), the order type, and
the owner `ApiKey` (modelled by its serialized string; `src/auth` is not among
the sources). -/
structure SignedOrder where
  order : Order
  signature : String
  order_type : OrderType
  owner : String

/-- `impl Serialize for SignedOrder`: serialize the order to a JSON value,
fold the signature into it, re-express `side` as its string token, and emit
the three-field struct `{order, orderType, owner}`. -/
def SignedOrder.serialize (so : SignedOrder) : Except String JsonValue :=
  match Order.serialize so.order with
  | .error e => .error e
  | .ok orderJ =>
      .ok (.obj [("order", rewriteSide (injectSignature orderJ so.signature)),
                 ("orderType", .str so.order_type.wireStr),
                 ("owner", .str so.owner)])

/-! ### Contract-address tables (`src/lib.rs`) -/

/-- `ContractConfig`: the deployed contract addresses for one chain (addresses
as 160-bit numbers). -/
structure ContractConfig where
  exchange : Nat
  collateral : Nat
  conditional_tokens : Nat
  neg_risk_adapter : Option Nat
deriving DecidableEq, Repr

/-- The static `CONFIG` table (`phf_map!` keyed by chain id), as a pure
lookup: the `phf` map is immutable after construction. -/
def CONFIG (chainId : Nat) : Option ContractConfig :=
  if chainId = 137 then
    some { exchange := 0xE79717fE8456C620cFde6156b6AeAd79C4875Ca2
           collateral := 0x2791Bca1f2de4661ED88A30C99A7a9449Aa84174
           conditional_tokens := 0x9432978d0f8A0E1a5317DD545B4a9ad32da8AD59
           neg_risk_adapter := none }
  else if chainId = 80002 then
    some { exchange := 0xE79717fE8456C620cFde6156b6AeAd79C4875Ca2
           collateral := 0x29604FdE966E3AEe42d9b5451BD9912863b3B904
           conditional_tokens := 0x9432978d0f8A0E1a5317DD545B4a9ad32da8AD59
           neg_risk_adapter := none }
  else none

/-- The static `NEG_RISK_CONFIG` table, as a pure lookup. -/
def NEG_RISK_CONFIG (chainId : Nat) : Option ContractConfig :=
  if chainId = 137 then
    some { exchange := 0xccBe425A0Aa24DCEf81f2e6edE3568a1683e7cbe
           collateral := 0x2791Bca1f2de4661ED88A30C99A7a9449Aa84174
           conditional_tokens := 0x9432978d0f8A0E1a5317DD545B4a9ad32da8AD59
           neg_risk_adapter := some 0xc26DACF369DC1eA12421B9104031Cb5a2F8C9215 }
  else if chainId = 80002 then
    some { exchange := 0xccBe425A0Aa24DCEf81f2e6edE3568a1683e7cbe
           collateral := 0x29604FdE966E3AEe42d9b5451BD9912863b3B904
           conditional_tokens := 0x9432978d0f8A0E1a5317DD545B4a9ad32da8AD59
           neg_risk_adapter := some 0xc26DACF369DC1eA12421B9104031Cb5a2F8C9215 }
  else none

/-- `contract_config`: select the neg-risk table when `is_neg_risk`, the
standard table otherwise.  A pure function of its arguments. -/
def contract_config (chainId : Nat) (is_neg_risk : Bool) : Option ContractConfig :=
  if is_neg_risk then NEG_RISK_CONFIG chainId else CONFIG chainId

/-! ### Bridge client (`src/bridge/client.rs`) -/

/-- The pieces of a parsed `url::Url` the bridge client looks at. -/
structure Url where
  scheme : String
  host : Option String
  path : String
  fragment : Option String
deriving DecidableEq, Repr

/-- Split a character list at the first occurrence of `c`: the part before it,
and (when present) the part after it. -/
def breakOnChar (c : Char) : List Char → List Char × Option (List Char)
  | [] => ([], none)
  | x :: xs =>
      if x = c then ([], some xs)
      else
        let p := breakOnChar c xs
        (x :: p.1, p.2)

/-- `url::Url::parse`, modelled for absolute `scheme://host/path#fragment`
URLs (the only shapes the bridge client builds): everything after the first
`#` is the fragment, the scheme precedes `://`, the host runs to the first
`/`, and the rest (with its leading slash) is the path. -/
def Url.parse (s : String) : Except Error Url :=
  let p := breakOnChar '#' s.data
  let frag := p.2.map String.mk
  match breakOnChar ':' p.1 with
  | (scheme, some rest) =>
      match rest with
      | '/' :: '/' :: tail =>
          let hp := breakOnChar '/' tail
          let path := match hp.2 with
            | some r => "/" ++ String.mk r
            | none => "/"
          .ok { scheme := String.mk scheme
                host := some (String.mk hp.1)
                path := path
                fragment := frag }
      | _ => .error (.urlParse "relative URL without a base")
  | (_, none) => .error (.urlParse "relative URL without a base")

/-- The `Display` rendering of a parsed URL (used by `format!("{}deposit",
self.host())`). -/
def Url.render (u : Url) : String :=
  u.scheme ++ "://" ++ (u.host.getD "") ++ u.path ++
    (match u.fragment with
     | some f => "#" ++ f
     | none => "")

/-- `DEFAULT_HOST` in `src/bridge/client.rs`. -/
def DEFAULT_HOST : String := "https://bridge.kuest.com/#disabled"

/-- `DISABLED_HOST` in `src/bridge/client.rs`. -/
def DISABLED_HOST : String := "bridge.kuest.com"

/-- `is_disabled_host`: a fragment is present, or the host string equals
`DISABLED_HOST`. -/
def is_disabled_host (host : Url) : Bool :=
  host.fragment.isSome || host.host == some DISABLED_HOST

/-- `DepositRequest` (only carried through; the bridge client never inspects
it before the network call). -/
structure DepositRequest where
  address : Nat
deriving DecidableEq, Repr

/-- The bridge `Client` state relevant before any network traffic: the parsed
host and the disabled flag computed at construction.  The `reqwest` HTTP
client inside it is transport plumbing with no behavior before a request is
issued. -/
structure Client where
  host : Url
  disabled : Bool
deriving DecidableEq, Repr

/-- `Client::new`: parse the host, compute the disabled flag from it. -/
def Client.new (host : String) : Except Error Client :=
  match Url.parse host with
  | .error e => .error e
  | .ok url => .ok { host := url, disabled := is_disabled_host url }

/-- A placeholder for the unreachable panic branch of
`Client::new(DEFAULT_HOST).expect(..)` (the theorem on the default client
shows `Client.new DEFAULT_HOST` succeeds, so this value is never used). -/
def panicClient : Client :=
  { host := { scheme := "", host := none, path := "", fragment := none }
    disabled := true }

/-- `impl Default for Client`: build from `DEFAULT_HOST`. -/
def Client.defaultClient : Client :=
  match Client.new DEFAULT_HOST with
  | .ok c => c
  | .error _ => panicClient

/-- The observable outcome of a bridge endpoint call up to the point where an
HTTP request would be issued: either it is issued (method and URL recorded) or
the call failed first. -/
inductive BridgeCall where
  | httpRequest (method : String) (url : String)
deriving DecidableEq, Repr

/-- `Client::ensure_enabled`. -/
def Client.ensure_enabled (c : Client) : Except Error Unit :=
  if c.disabled then .error (.validation "Bridge desativada") else .ok ()

/-- `Client::deposit` up to the network boundary: the disabled check runs
before the request is built or sent. -/
def Client.deposit (c : Client) (_request : DepositRequest) : Except Error BridgeCall :=
  match c.ensure_enabled with
  | .error e => .error e
  | .ok _ => .ok (.httpRequest "POST" (c.host.render ++ "deposit"))

/-- `Client::supported_assets` up to the network boundary. -/
def Client.supported_assets (c : Client) : Except Error BridgeCall :=
  match c.ensure_enabled with
  | .error e => .error e
  | .ok _ => .ok (.httpRequest "GET" (c.host.render ++ "supported-assets"))

/-! ## Helper lemmas -/

theorem stripZeros_scale_le (m : Int) (s : Nat) : (stripZeros m s).2 ≤ s := by
  induction s generalizing m with
  | zero => simp [stripZeros]
  | succ n ih =>
    by_cases h : m % 10 = 0
    · rw [stripZeros, if_pos h]
      exact (ih (m / 10)).trans (Nat.le_succ n)
    · rw [stripZeros, if_neg h]

theorem stripZeros_mantissa_ne (m : Int) (s : Nat) (h : m ≠ 0) :
    (stripZeros m s).1 ≠ 0 := by
  induction s generalizing m with
  | zero => simpa [stripZeros] using h
  | succ n ih =>
    by_cases h10 : m % 10 = 0
    · rw [stripZeros, if_pos h10]
      refine ih (m / 10) fun hz => h ?_
      have hdm := Int.ediv_add_emod m 10
      omega
    · rw [stripZeros, if_neg h10]
      simpa using h

theorem stripZeros_fix (m : Int) (s : Nat) :
    (stripZeros m s).2 = 0 ∨ (stripZeros m s).1 % 10 ≠ 0 := by
  induction s generalizing m with
  | zero => left; rfl
  | succ n ih =>
    by_cases h10 : m % 10 = 0
    · rw [stripZeros, if_pos h10]
      exact ih (m / 10)
    · rw [stripZeros, if_neg h10]
      right
      simpa using h10

theorem stripZeros_self (m : Int) (s : Nat) (h : s = 0 ∨ m % 10 ≠ 0) :
    stripZeros m s = (m, s) := by
  cases s with
  | zero => rfl
  | succ n =>
    rcases h with h | h
    · exact absurd h (Nat.succ_ne_zero n)
    · rw [stripZeros, if_neg h]

/-- A decimal with a non-zero mantissa not divisible by 10 is a normalization
fixed point. -/
theorem Decimal.normalize_self (d : Decimal) (h : d.mantissa ≠ 0)
    (h10 : d.scale = 0 ∨ d.mantissa % 10 ≠ 0) : d.normalize = d := by
  rw [Decimal.normalize, if_neg h, stripZeros_self _ _ h10]

/-- Normalization is idempotent on the raw decimal. -/
theorem Decimal.normalize_idem (d : Decimal) : d.normalize.normalize = d.normalize := by
  by_cases h : d.mantissa = 0
  · simp [Decimal.normalize, h]
  · have h1 : (stripZeros d.mantissa d.scale).1 ≠ 0 := stripZeros_mantissa_ne _ _ h
    have h2 := stripZeros_fix d.mantissa d.scale
    have hd : d.normalize =
        ⟨(stripZeros d.mantissa d.scale).1, (stripZeros d.mantissa d.scale).2⟩ := by
      rw [Decimal.normalize, if_neg h]
    rw [hd]
    exact Decimal.normalize_self _ h1 h2

/-- Normalization never increases the scale. -/
theorem Decimal.normalize_scale_le (d : Decimal) : d.normalize.scale ≤ d.scale := by
  by_cases h : d.mantissa = 0
  · simp [Decimal.normalize, h]
  · rw [Decimal.normalize, if_neg h]
    exact stripZeros_scale_le _ _

/-- The `Amount` error message contains both the offending scale and the
limit. -/
theorem amountErrMsg_contains (s limit : Nat) :
    containsSub (amountErrMsg s limit) (toString s) ∧
      containsSub (amountErrMsg s limit) (toString limit) := by
  constructor
  · exact ⟨"Unable to build Amount with ",
      " decimal points, must be <= " ++ toString limit, rfl⟩
  · refine ⟨"Unable to build Amount with " ++ (toString s ++ " decimal points, must be <= "),
      "", ?_⟩
    simp [amountErrMsg, String.append_assoc]

/-! ## Claim theorems -/

/-- C4: `Amount::usdc` (`make_currency`) succeeds exactly when the normalized
scale is at most `USDC_DECIMALS`, and `Amount::shares` (`make_shares`) exactly
when it is at most `LOT_SIZE_SCALE`; on failure the result is a validation
error whose message contains both the offending normalized scale and the
maximum allowed scale.  Construction is a pure function of its argument (the
embedding is a total function), so it has no side effects. -/
theorem amount_construction_spec (v : Decimal) :
    ((∃ a, Amount.usdc v = .ok a) ↔ v.normalize.scale ≤ USDC_DECIMALS) ∧
    ((∃ a, Amount.shares v = .ok a) ↔ v.normalize.scale ≤ LOT_SIZE_SCALE) ∧
    (∀ msg, Amount.usdc v = .error (.validation msg) →
        msg = amountErrMsg v.normalize.scale USDC_DECIMALS ∧
        containsSub msg (toString v.normalize.scale) ∧
        containsSub msg (toString USDC_DECIMALS)) ∧
    (∀ msg, Amount.shares v = .error (.validation msg) →
        msg = amountErrMsg v.normalize.scale LOT_SIZE_SCALE ∧
        containsSub msg (toString v.normalize.scale) ∧
        containsSub msg (toString LOT_SIZE_SCALE)) := by
  refine ⟨⟨?_, ?_⟩, ⟨?_, ?_⟩, ?_, ?_⟩
  · rintro ⟨a, ha⟩
    by_contra hs
    simp [Amount.usdc, Nat.not_le.1 hs] at ha
  · intro hs
    exact ⟨⟨.usdc v.normalize⟩, by simp [Amount.usdc, Nat.not_lt.2 hs]⟩
  · rintro ⟨a, ha⟩
    by_contra hs
    simp [Amount.shares, Nat.not_le.1 hs] at ha
  · intro hs
    exact ⟨⟨.shares v.normalize⟩, by simp [Amount.shares, Nat.not_lt.2 hs]⟩
  · intro msg hmsg
    by_cases h : USDC_DECIMALS < v.normalize.scale
    · simp [Amount.usdc, h] at hmsg
      subst hmsg
      exact ⟨rfl, amountErrMsg_contains _ _⟩
    · simp [Amount.usdc, h] at hmsg
  · intro msg hmsg
    by_cases h : LOT_SIZE_SCALE < v.normalize.scale
    · simp [Amount.shares, h] at hmsg
      subst hmsg
      exact ⟨rfl, amountErrMsg_contains _ _⟩
    · simp [Amount.shares, h] at hmsg

/-- Witness for C4: the input `123.4567` (scale 7) is rejected by both
constructors with a message naming scale 7 and the limit; the input `2.5` is
accepted as shares. -/
theorem amount_construction_spec_witness :
    (amountErrMsg 7 USDC_DECIMALS =
        amountErrMsg (Decimal.normalize ⟨1234567, 7⟩).scale USDC_DECIMALS ∧
      containsSub (amountErrMsg 7 USDC_DECIMALS)
        (toString (Decimal.normalize ⟨1234567, 7⟩).scale) ∧
      containsSub (amountErrMsg 7 USDC_DECIMALS) (toString USDC_DECIMALS)) ∧
    (amountErrMsg 7 LOT_SIZE_SCALE =
        amountErrMsg (Decimal.normalize ⟨1234567, 7⟩).scale LOT_SIZE_SCALE ∧
      containsSub (amountErrMsg 7 LOT_SIZE_SCALE)
        (toString (Decimal.normalize ⟨1234567, 7⟩).scale) ∧
      containsSub (amountErrMsg 7 LOT_SIZE_SCALE) (toString LOT_SIZE_SCALE)) ∧
    (∃ a, Amount.shares ⟨25, 1⟩ = .ok a) :=
  ⟨(amount_construction_spec ⟨1234567, 7⟩).2.2.1 (amountErrMsg 7 USDC_DECIMALS) rfl,
   (amount_construction_spec ⟨1234567, 7⟩).2.2.2 (amountErrMsg 7 LOT_SIZE_SCALE) rfl,
   (amount_construction_spec ⟨25, 1⟩).2.1.2 (by decide)⟩

/-- C5 counterexample: the input `1.10` has scale 2 ≤ `USDC_DECIMALS`, yet
`Amount::usdc` succeeds with the trailing zero stripped, so the returned scale
is 1, not the input's 2. -/
theorem make_currency_same_scale_cex :
    (⟨110, 2⟩ : Decimal).scale = 2 ∧
    (⟨110, 2⟩ : Decimal).scale ≤ USDC_DECIMALS ∧
    Amount.usdc ⟨110, 2⟩ = .ok ⟨.usdc ⟨11, 1⟩⟩ ∧
    Amount.as_inner ⟨.usdc ⟨11, 1⟩⟩ = ⟨11, 1⟩ ∧
    (⟨11, 1⟩ : Decimal).scale ≠ (⟨110, 2⟩ : Decimal).scale :=
  ⟨rfl, by decide, rfl, rfl, by decide⟩

/-- C5 (amended): for all decimal inputs that are already normalized (no
trailing zeros) with scale at most the quote-currency limit, `make_currency`
succeeds and returns the input value itself, in particular with the same
scale. -/
theorem make_currency_same_scale (v : Decimal) (hnorm : v.normalize = v)
    (hs : v.scale ≤ USDC_DECIMALS) :
    ∃ a, Amount.usdc v = .ok a ∧ a.as_inner = v ∧ a.as_inner.scale = v.scale := by
  refine ⟨⟨.usdc v⟩, ?_, rfl, rfl⟩
  simp [Amount.usdc, hnorm, Nat.not_lt.2 hs]

/-- Witness for C5 (amended): the normalized input `1.1` (scale 1). -/
theorem make_currency_same_scale_witness :
    (Decimal.normalize ⟨11, 1⟩ = ⟨11, 1⟩ ∧ (⟨11, 1⟩ : Decimal).scale ≤ USDC_DECIMALS) ∧
    ∃ a, Amount.usdc ⟨11, 1⟩ = .ok a ∧ a.as_inner = ⟨11, 1⟩ ∧
      a.as_inner.scale = (⟨11, 1⟩ : Decimal).scale :=
  ⟨⟨by decide, by decide⟩, make_currency_same_scale ⟨11, 1⟩ (by decide) (by decide)⟩

/-- C6: normalization is idempotent at the `Amount` level — re-running the
constructor on a constructed amount's inner value succeeds and returns the
very same amount (hence the same inner decimal). -/
theorem amount_normalization_idempotent (v : Decimal) (a : Amount) :
    (Amount.usdc v = .ok a → Amount.usdc a.as_inner = .ok a) ∧
    (Amount.shares v = .ok a → Amount.shares a.as_inner = .ok a) := by
  constructor
  · intro h
    by_cases hs : USDC_DECIMALS < v.normalize.scale
    · simp [Amount.usdc, hs] at h
    · simp [Amount.usdc, hs] at h
      subst h
      simp [Amount.usdc, Amount.as_inner, AmountInner.as_inner, Decimal.normalize_idem, hs]
  · intro h
    by_cases hs : LOT_SIZE_SCALE < v.normalize.scale
    · simp [Amount.shares, hs] at h
    · simp [Amount.shares, hs] at h
      subst h
      simp [Amount.shares, Amount.as_inner, AmountInner.as_inner, Decimal.normalize_idem, hs]

/-- Witness for C6: concrete currency amount `1.1` and share amount `2.5`. -/
theorem amount_normalization_idempotent_witness :
    (Amount.usdc ⟨11, 1⟩ = .ok ⟨.usdc ⟨11, 1⟩⟩ ∧
      Amount.usdc (Amount.as_inner ⟨.usdc ⟨11, 1⟩⟩) = .ok ⟨.usdc ⟨11, 1⟩⟩) ∧
    (Amount.shares ⟨25, 1⟩ = .ok ⟨.shares ⟨25, 1⟩⟩ ∧
      Amount.shares (Amount.as_inner ⟨.shares ⟨25, 1⟩⟩) = .ok ⟨.shares ⟨25, 1⟩⟩) :=
  ⟨⟨rfl, (amount_normalization_idempotent ⟨11, 1⟩ ⟨.usdc ⟨11, 1⟩⟩).1 rfl⟩,
   ⟨rfl, (amount_normalization_idempotent ⟨25, 1⟩ ⟨.shares ⟨25, 1⟩⟩).2 rfl⟩⟩

/-- `Side::try_from` rejects every value other than 0 and 1 with the
validation message naming the value. -/
theorem Side.tryFrom_ne (v : Nat) (h0 : v ≠ 0) (h1 : v ≠ 1) :
    Side.tryFrom v = .error (.validation (sideErrMsg v)) := by
  cases v with
  | zero => exact absurd rfl h0
  | succ n =>
    cases n with
    | zero => exact absurd rfl h1
    | succ m => rfl

/-- C2: the `Side` encodings round-trip — `Buy`/`Sell` carry discriminants
0/1, `Side::try_from` inverts them, their string tokens are `"BUY"`/`"SELL"`,
deserializing the token and re-encoding recovers the original integer, and
`try_from` on any other `u8` is a validation error. -/
theorem side_roundtrip :
    (Side.toU8 .Buy = 0 ∧ Side.toU8 .Sell = 1) ∧
    (Side.tryFrom (Side.toU8 .Buy) = .ok .Buy ∧
      Side.tryFrom (Side.toU8 .Sell) = .ok .Sell) ∧
    (Side.display .Buy = "BUY" ∧ Side.display .Sell = "SELL") ∧
    (Side.fromWireStr (Side.display .Buy) = .Buy ∧
      Side.toU8 (Side.fromWireStr (Side.display .Buy)) = Side.toU8 .Buy ∧
      Side.fromWireStr (Side.display .Sell) = .Sell ∧
      Side.toU8 (Side.fromWireStr (Side.display .Sell)) = Side.toU8 .Sell) ∧
    (∀ v : Nat, v < 256 → v ≠ 0 → v ≠ 1 →
      Side.tryFrom v = .error (.validation (sideErrMsg v))) := by
  refine ⟨by decide, ⟨rfl, rfl⟩, by decide, by decide, ?_⟩
  intro v _ h0 h1
  exact Side.tryFrom_ne v h0 h1

/-- Witness for C2: `try_from 7` fails with the message naming 7. -/
theorem side_roundtrip_witness :
    (7 : Nat) < 256 ∧ Side.tryFrom 7 = .error (.validation (sideErrMsg 7)) :=
  ⟨by decide, side_roundtrip.2.2.2.2 7 (by decide) (by decide) (by decide)⟩

/-- C7: for `OrderType`, `Side` and `OrderStatusType`, deserializing any
unrecognized string succeeds with the `Unknown` variant, while the recognized
spellings (variant names and lowercase aliases) map to their fixed
variants. -/
theorem unknown_fallback_decoding :
    (∀ s, s ∉ orderTypeRecognized → OrderType.fromWireStr s = .Unknown) ∧
    (OrderType.fromWireStr "GTC" = .GTC ∧ OrderType.fromWireStr "gtc" = .GTC ∧
      OrderType.fromWireStr "FOK" = .FOK ∧ OrderType.fromWireStr "fok" = .FOK ∧
      OrderType.fromWireStr "GTD" = .GTD ∧ OrderType.fromWireStr "gtd" = .GTD ∧
      OrderType.fromWireStr "FAK" = .FAK ∧ OrderType.fromWireStr "fak" = .FAK) ∧
    (∀ s, s ∉ sideRecognized → Side.fromWireStr s = .Unknown) ∧
    (Side.fromWireStr "BUY" = .Buy ∧ Side.fromWireStr "buy" = .Buy ∧
      Side.fromWireStr "SELL" = .Sell ∧ Side.fromWireStr "sell" = .Sell) ∧
    (∀ s, s ∉ orderStatusRecognized → OrderStatusType.fromWireStr s = .Unknown) ∧
    (OrderStatusType.fromWireStr "LIVE" = .Live ∧
      OrderStatusType.fromWireStr "live" = .Live ∧
      OrderStatusType.fromWireStr "MATCHED" = .Matched ∧
      OrderStatusType.fromWireStr "matched" = .Matched ∧
      OrderStatusType.fromWireStr "CANCELED" = .Canceled ∧
      OrderStatusType.fromWireStr "canceled" = .Canceled ∧
      OrderStatusType.fromWireStr "DELAYED" = .Delayed ∧
      OrderStatusType.fromWireStr "delayed" = .Delayed ∧
      OrderStatusType.fromWireStr "UNMATCHED" = .Unmatched ∧
      OrderStatusType.fromWireStr "unmatched" = .Unmatched) := by
  refine ⟨?_, by decide, ?_, by decide, ?_, by decide⟩
  · intro s hs
    simp only [orderTypeRecognized, List.mem_cons, List.not_mem_nil, or_false,
      not_or] at hs
    obtain ⟨h1, h2, h3, h4, h5, h6, h7, h8⟩ := hs
    simp [OrderType.fromWireStr, h1, h2, h3, h4, h5, h6, h7, h8]
  · intro s hs
    simp only [sideRecognized, List.mem_cons, List.not_mem_nil, or_false,
      not_or] at hs
    obtain ⟨h1, h2, h3, h4⟩ := hs
    simp [Side.fromWireStr, h1, h2, h3, h4]
  · intro s hs
    simp only [orderStatusRecognized, List.mem_cons, List.not_mem_nil, or_false,
      not_or] at hs
    obtain ⟨h1, h2, h3, h4, h5, h6, h7, h8, h9, h10⟩ := hs
    simp [OrderStatusType.fromWireStr, h1, h2, h3, h4, h5, h6, h7, h8, h9, h10]

/-- Witness for C7: the unrecognized string `"ZZZ"` decodes to `Unknown` in
all three wire types. -/
theorem unknown_fallback_decoding_witness :
    ("ZZZ" ∉ orderTypeRecognized ∧ OrderType.fromWireStr "ZZZ" = .Unknown) ∧
    ("ZZZ" ∉ sideRecognized ∧ Side.fromWireStr "ZZZ" = .Unknown) ∧
    ("ZZZ" ∉ orderStatusRecognized ∧ OrderStatusType.fromWireStr "ZZZ" = .Unknown) :=
  ⟨⟨by decide, unknown_fallback_decoding.1 "ZZZ" (by decide)⟩,
   ⟨by decide, unknown_fallback_decoding.2.2.1 "ZZZ" (by decide)⟩,
   ⟨by decide, unknown_fallback_decoding.2.2.2.2.1 "ZZZ" (by decide)⟩⟩

/-- C8: `contract_config` is a pure lookup over the immutable static tables —
it is `some` exactly for chain ids 137 (Polygon) and 80002 (Amoy), it selects
the neg-risk table when `is_neg_risk` and the standard table otherwise, and
being a function of its arguments it returns the same configuration on every
call (the tables are never mutated after initialization). -/
theorem contract_config_lookup (chainId : Nat) (is_neg_risk : Bool) :
    ((contract_config chainId is_neg_risk).isSome ↔ chainId = 137 ∨ chainId = 80002) ∧
    contract_config chainId true = NEG_RISK_CONFIG chainId ∧
    contract_config chainId false = CONFIG chainId := by
  refine ⟨⟨?_, ?_⟩, rfl, rfl⟩
  · intro h
    by_contra hc
    push_neg at hc
    obtain ⟨h1, h2⟩ := hc
    cases is_neg_risk <;>
      simp [contract_config, CONFIG, NEG_RISK_CONFIG, h1, h2] at h
  · intro h
    rcases h with h | h <;> subst h <;> cases is_neg_risk <;>
      simp [contract_config, CONFIG, NEG_RISK_CONFIG]

/-- Witness for C8: Polygon (137) has a neg-risk configuration; an unknown
chain (999) has none. -/
theorem contract_config_lookup_witness :
    (contract_config 137 true).isSome ∧
    (contract_config 999 false).isSome = false ∧
    contract_config 137 true = NEG_RISK_CONFIG 137 :=
  ⟨(contract_config_lookup 137 true).1.mpr (Or.inl rfl), by decide,
   (contract_config_lookup 137 true).2.1⟩

/-- C10: the default bridge client is permanently disabled — its host URL
parses with both a fragment and the host string `bridge.kuest.com` (either
alone triggers `is_disabled_host`), so `Client::new` marks it disabled, and
every call to `deposit` or `supported_assets` fails with the validation error
before any HTTP request is issued. -/
theorem bridge_default_disabled :
    Url.parse DEFAULT_HOST =
      .ok { scheme := "https", host := some "bridge.kuest.com", path := "/",
            fragment := some "disabled" } ∧
    (Url.mk "https" (some "bridge.kuest.com") "/" (some "disabled")).fragment.isSome = true ∧
    (Url.mk "https" (some "bridge.kuest.com") "/" (some "disabled")).host = some DISABLED_HOST ∧
    is_disabled_host (Url.mk "https" (some "bridge.kuest.com") "/" (some "disabled")) = true ∧
    Client.defaultClient.disabled = true ∧
    (∀ request : DepositRequest,
      Client.defaultClient.deposit request = .error (.validation "Bridge desativada")) ∧
    Client.defaultClient.supported_assets = .error (.validation "Bridge desativada") := by
  exact ⟨rfl, rfl, rfl, rfl, rfl, fun _ => rfl, rfl⟩

/-! ### Helper lemmas for the serialization claims -/

theorem getF_setF_self (l : List (String × JsonValue)) (k : String) (v : JsonValue) :
    getF (setF l k v) k = some v := by
  induction l with
  | nil => simp [setF, getF]
  | cons p rest ih =>
    obtain ⟨k0, v0⟩ := p
    by_cases h : k0 = k
    · simp [setF, getF, h]
    · simp [setF, getF, h, ih]

theorem getF_setF_ne (l : List (String × JsonValue)) (k k' : String) (v : JsonValue)
    (h : k' ≠ k) : getF (setF l k v) k' = getF l k' := by
  induction l with
  | nil => simp [setF, getF, Ne.symm h]
  | cons p rest ih =>
    obtain ⟨k0, v0⟩ := p
    by_cases h0 : k0 = k
    · subst h0
      simp [setF, getF, Ne.symm h]
    · by_cases h1 : k0 = k'
      · subst h1
        simp [setF, getF, h0]
      · simp [setF, getF, h0, h1, ih]

/-- `Order::serialize` on an in-range salt. -/
theorem Order.serialize_ok_order_salt (o : Order) (h : o.salt < 2 ^ 64) :
    Order.serialize o =
      .ok (.obj (("salt", .num (Int.ofNat o.salt)) :: orderFieldsRest o)) := by
  rw [Order.serialize, ser_salt, if_pos h]

/-- `SignedOrder::serialize` on an in-range salt. -/
theorem SignedOrder.serialize_ok_of_salt (so : SignedOrder) (h : so.order.salt < 2 ^ 64) :
    SignedOrder.serialize so =
      .ok (.obj [("order",
                   rewriteSide (injectSignature
                     (.obj (("salt", .num (Int.ofNat so.order.salt)) ::
                        orderFieldsRest so.order)) so.signature)),
                 ("orderType", .str so.order_type.wireStr),
                 ("owner", .str so.owner)]) := by
  rw [SignedOrder.serialize, Order.serialize_ok_order_salt _ h]

/-- When the `"side"` field holds the integer 0, the serializer replaces it by
the token `"BUY"`. -/
theorem rewriteSide_buy (l : List (String × JsonValue))
    (h : getF l "side" = some (.num (Int.ofNat 0))) :
    rewriteSide (.obj l) = .obj (setF l "side" (.str "BUY")) := by
  rw [rewriteSide, h]
  rfl

/-- When the `"side"` field holds the integer 1, the serializer replaces it by
the token `"SELL"`. -/
theorem rewriteSide_sell (l : List (String × JsonValue))
    (h : getF l "side" = some (.num (Int.ofNat 1))) :
    rewriteSide (.obj l) = .obj (setF l "side" (.str "SELL")) := by
  rw [rewriteSide, h]
  rfl

/-- `Value::as_u64` recovers a byte-sized natural number. -/
theorem asU64_ofNat (n : Nat) (h256 : n < 256) :
    JsonValue.asU64 (.num (Int.ofNat n)) = some n := by
  have h64 : Int.ofNat n < (2 : Int) ^ 64 :=
    lt_of_lt_of_le (Int.ofNat_lt.2 h256) (by norm_num)
  rw [JsonValue.asU64, if_pos ⟨Int.ofNat_nonneg n, h64⟩]
  simp

/-- When the `"side"` field holds a byte other than 0 and 1, the serializer
leaves the object untouched. -/
theorem rewriteSide_other (l : List (String × JsonValue)) (n : Nat)
    (h256 : n < 256) (h0 : n ≠ 0) (h1 : n ≠ 1)
    (h : getF l "side" = some (.num (Int.ofNat n))) :
    rewriteSide (.obj l) = .obj l := by
  have hle : n ≤ 255 := Nat.lt_succ_iff.mp h256
  rw [rewriteSide, h]
  split
  all_goals rename_i heq
  case _ v =>
    injection heq with heq
    subst heq
    rw [asU64_ofNat n h256]
    split
    all_goals rename_i heq2
    case _ m =>
      injection heq2 with heq2
      subst heq2
      rw [if_pos hle, Side.tryFrom_ne n h0 h1]
    case _ =>
      exact absurd heq2 (by simp)
  case _ =>
    exact absurd heq (by simp)

theorem injectSignature_obj (l : List (String × JsonValue)) (s : String) :
    injectSignature (.obj l) s = .obj (setF l "signature" (.str s)) := rfl

/-- The side rewrite touches no field other than `"side"`. -/
theorem rewriteSide_getField_ne (l : List (String × JsonValue)) (k : String)
    (hk : k ≠ "side") : (rewriteSide (.obj l)).getField k = getF l k := by
  rw [rewriteSide]
  repeat' split
  all_goals first
    | rfl
    | exact getF_setF_ne l "side" k _ hk

/-- C1: serializing a `SignedOrder` yields exactly the three top-level fields
`order`, `orderType`, `owner`; the signature appears as a `signature` field
inside the nested order object and not at top level; when the side byte is 0
or 1 the nested `side` field is the token `"BUY"` resp. `"SELL"`; and every
other field of the nested object equals the field of the plain `Order`
serialization (its canonical representation). -/
theorem signed_order_wire_format (so : SignedOrder) (j : JsonValue)
    (h : SignedOrder.serialize so = .ok j) :
    ∃ (oj : JsonValue) (oj0 : List (String × JsonValue)),
      Order.serialize so.order = .ok (.obj oj0) ∧
      j = .obj [("order", oj), ("orderType", .str so.order_type.wireStr),
                ("owner", .str so.owner)] ∧
      j.getField "signature" = none ∧
      oj.getField "signature" = some (.str so.signature) ∧
      (so.order.side = 0 → oj.getField "side" = some (.str "BUY")) ∧
      (so.order.side = 1 → oj.getField "side" = some (.str "SELL")) ∧
      (∀ k, k ≠ "signature" → k ≠ "side" → oj.getField k = getF oj0 k) := by
  have hsalt : so.order.salt < 2 ^ 64 := by
    by_contra hs
    rw [SignedOrder.serialize, Order.serialize, ser_salt, if_neg hs] at h
    simp at h
  have hj := (SignedOrder.serialize_ok_of_salt so hsalt).symm.trans h
  injection hj with hj
  subst hj
  rw [injectSignature_obj]
  have hGside :
      getF (setF (("salt", JsonValue.num (Int.ofNat so.order.salt)) ::
          orderFieldsRest so.order) "signature" (.str so.signature)) "side" =
        some (.num (Int.ofNat so.order.side)) := by
    rw [getF_setF_ne _ _ _ _ (by decide)]
    rfl
  refine ⟨_, ("salt", JsonValue.num (Int.ofNat so.order.salt)) :: orderFieldsRest so.order,
    Order.serialize_ok_order_salt _ hsalt, rfl, rfl, ?_, ?_, ?_, ?_⟩
  · rw [rewriteSide_getField_ne _ _ (by decide)]
    exact getF_setF_self _ _ _
  · intro h0
    rw [h0] at hGside
    rw [rewriteSide_buy _ hGside]
    exact getF_setF_self _ _ _
  · intro h1
    rw [h1] at hGside
    rw [rewriteSide_sell _ hGside]
    exact getF_setF_self _ _ _
  · intro k hk1 hk2
    rw [rewriteSide_getField_ne _ _ hk2, getF_setF_ne _ _ _ _ hk1]

/-- Witness for C1: a concrete buy order with salt 42 serializes successfully
and satisfies every clause of the wire-format theorem. -/
theorem signed_order_wire_format_witness :
    ∃ (oj : JsonValue) (oj0 : List (String × JsonValue)),
      Order.serialize (Order.mk 42 1 2 0 777 5 6 8 9 10 0 0) = .ok (.obj oj0) ∧
      JsonValue.obj
          [("order",
             rewriteSide (injectSignature
               (.obj (("salt", .num (Int.ofNat 42)) ::
                  orderFieldsRest (Order.mk 42 1 2 0 777 5 6 8 9 10 0 0))) "0xsig")),
           ("orderType", .str OrderType.GTC.wireStr), ("owner", .str "key")] =
        .obj [("order", oj), ("orderType", .str OrderType.GTC.wireStr),
              ("owner", .str "key")] ∧
      (JsonValue.obj
          [("order",
             rewriteSide (injectSignature
               (.obj (("salt", .num (Int.ofNat 42)) ::
                  orderFieldsRest (Order.mk 42 1 2 0 777 5 6 8 9 10 0 0))) "0xsig")),
           ("orderType", .str OrderType.GTC.wireStr),
           ("owner", .str "key")]).getField "signature" = none ∧
      oj.getField "signature" = some (.str "0xsig") ∧
      ((0 : Nat) = 0 → oj.getField "side" = some (.str "BUY")) ∧
      ((0 : Nat) = 1 → oj.getField "side" = some (.str "SELL")) ∧
      (∀ k, k ≠ "signature" → k ≠ "side" → oj.getField k = getF oj0 k) :=
  signed_order_wire_format
    (SignedOrder.mk (Order.mk 42 1 2 0 777 5 6 8 9 10 0 0) "0xsig" .GTC "key") _ rfl

/-- C3: in the serialized `Order`, every `uint256` field other than `salt`
(`tokenId`, `makerAmount`, `takerAmount`, `expiration`, `nonce`, `feeRateBps`)
is rendered as a decimal string, `salt` is rendered as a plain JSON number,
and serialization succeeds exactly when the salt fits in 64 bits. -/
theorem order_serialization_repr (o : Order) :
    ((∃ j, Order.serialize o = .ok j) ↔ o.salt < 2 ^ 64) ∧
    (∀ j, Order.serialize o = .ok j →
      j.getField "salt" = some (.num (Int.ofNat o.salt)) ∧
      j.getField "tokenId" = some (.str (toString o.tokenId)) ∧
      j.getField "makerAmount" = some (.str (toString o.makerAmount)) ∧
      j.getField "takerAmount" = some (.str (toString o.takerAmount)) ∧
      j.getField "expiration" = some (.str (toString o.expiration)) ∧
      j.getField "nonce" = some (.str (toString o.nonce)) ∧
      j.getField "feeRateBps" = some (.str (toString o.feeRateBps))) := by
  have herr : ¬ o.salt < 2 ^ 64 → ∀ j, Order.serialize o ≠ .ok j := by
    intro hs j hj
    rw [Order.serialize, ser_salt, if_neg hs] at hj
    simp at hj
  constructor
  · constructor
    · rintro ⟨j, hj⟩
      by_contra hs
      exact herr hs j hj
    · intro hs
      exact ⟨_, Order.serialize_ok_order_salt o hs⟩
  · intro j hj
    have hs : o.salt < 2 ^ 64 := by
      by_contra hs
      exact herr hs j hj
    have hj2 := (Order.serialize_ok_order_salt o hs).symm.trans hj
    injection hj2 with hj2
    subst hj2
    exact ⟨rfl, rfl, rfl, rfl, rfl, rfl, rfl⟩

/-- Witness for C3: the concrete order with salt 42 serializes with a numeric
salt and decimal-string 256-bit fields; the same order with salt `2^64` fails
to serialize. -/
theorem order_serialization_repr_witness :
    ((JsonValue.obj (("salt", .num (Int.ofNat 42)) ::
        orderFieldsRest (Order.mk 42 1 2 0 777 5 6 8 9 10 0 0))).getField "salt" =
      some (.num (Int.ofNat 42)) ∧
     (JsonValue.obj (("salt", .num (Int.ofNat 42)) ::
        orderFieldsRest (Order.mk 42 1 2 0 777 5 6 8 9 10 0 0))).getField "tokenId" =
      some (.str (toString (777 : Nat))) ∧
     (JsonValue.obj (("salt", .num (Int.ofNat 42)) ::
        orderFieldsRest (Order.mk 42 1 2 0 777 5 6 8 9 10 0 0))).getField "makerAmount" =
      some (.str (toString (5 : Nat))) ∧
     (JsonValue.obj (("salt", .num (Int.ofNat 42)) ::
        orderFieldsRest (Order.mk 42 1 2 0 777 5 6 8 9 10 0 0))).getField "takerAmount" =
      some (.str (toString (6 : Nat))) ∧
     (JsonValue.obj (("salt", .num (Int.ofNat 42)) ::
        orderFieldsRest (Order.mk 42 1 2 0 777 5 6 8 9 10 0 0))).getField "expiration" =
      some (.str (toString (8 : Nat))) ∧
     (JsonValue.obj (("salt", .num (Int.ofNat 42)) ::
        orderFieldsRest (Order.mk 42 1 2 0 777 5 6 8 9 10 0 0))).getField "nonce" =
      some (.str (toString (9 : Nat))) ∧
     (JsonValue.obj (("salt", .num (Int.ofNat 42)) ::
        orderFieldsRest (Order.mk 42 1 2 0 777 5 6 8 9 10 0 0))).getField "feeRateBps" =
      some (.str (toString (10 : Nat)))) ∧
    (∃ j, Order.serialize (Order.mk (2 ^ 64) 1 2 0 777 5 6 8 9 10 0 0) = .ok j) = False :=
  ⟨(order_serialization_repr (Order.mk 42 1 2 0 777 5 6 8 9 10 0 0)).2 _ rfl,
   by
    simp only [eq_iff_iff, iff_false]
    intro hex
    have := (order_serialization_repr (Order.mk (2 ^ 64) 1 2 0 777 5 6 8 9 10 0 0)).1.mp hex
    simp at this⟩

/-- C9: a `SignedOrder` whose side byte is neither 0 nor 1 still serializes
successfully (given an in-range salt), and the nested `side` field keeps the
raw integer value instead of a string token. -/
theorem signed_order_unknown_side (so : SignedOrder)
    (h256 : so.order.side < 256) (h0 : so.order.side ≠ 0) (h1 : so.order.side ≠ 1)
    (hsalt : so.order.salt < 2 ^ 64) :
    ∃ (j oj : JsonValue), SignedOrder.serialize so = .ok j ∧
      j.getField "order" = some oj ∧
      oj.getField "side" = some (.num (Int.ofNat so.order.side)) := by
  have hGside :
      getF (setF (("salt", JsonValue.num (Int.ofNat so.order.salt)) ::
          orderFieldsRest so.order) "signature" (.str so.signature)) "side" =
        some (.num (Int.ofNat so.order.side)) := by
    rw [getF_setF_ne _ _ _ _ (by decide)]
    rfl
  refine ⟨_, .obj (setF (("salt", JsonValue.num (Int.ofNat so.order.salt)) ::
      orderFieldsRest so.order) "signature" (.str so.signature)),
    SignedOrder.serialize_ok_of_salt so hsalt, ?_, hGside⟩
  show some (rewriteSide (injectSignature _ _)) = _
  rw [injectSignature_obj, rewriteSide_other _ so.order.side h256 h0 h1 hGside]

/-- Witness for C9: the concrete order with side byte 255 (`Side::Unknown`)
serializes and keeps `side` numeric. -/
theorem signed_order_unknown_side_witness :
    (255 : Nat) < 256 ∧
    ∃ (j oj : JsonValue),
      SignedOrder.serialize
          (SignedOrder.mk (Order.mk 42 1 2 0 777 5 6 8 9 10 255 0) "0xsig" .FOK "key") =
        .ok j ∧
      j.getField "order" = some oj ∧
      oj.getField "side" = some (.num (Int.ofNat 255)) :=
  ⟨by decide,
   signed_order_unknown_side
     (SignedOrder.mk (Order.mk 42 1 2 0 777 5 6 8 9 10 255 0) "0xsig" .FOK "key")
     (by decide) (by decide) (by decide) (by norm_num)⟩

end RsClob
